import Mathlib

/-!
Verification of the in-memory report store of the gdc-gemini-munich demo
dashboard: the signals-variant store (`ReportManager`, report_manager.py),
the fraud-variant store (`ReportService`, report_service.py), the lookup
used by the listing pages (main.py, app_content.py), and the refresh
scheduler described by the specification.

Records are embedded with the two fields the store inspects (`report_id`
and `report_date`); the remaining schema fields (summary, transactions,
classification fields, ...) are opaque to the store and carried as one
payload string.  Calendar dates are embedded as day ordinals: in the fraud
variant the date is an ISO `YYYY-MM-DD` string whose lexicographic order
coincides with chronological order, so a `Nat` ordinal is order-faithful
for both variants.  External effects are made explicit: `random.sample`
becomes a sampler parameter constrained by `ValidSampler`, the external
record generator becomes the list of candidates it returns on successive
calls, and the banners `st.warning` / `st.error` become an emitted message
list.
-/

namespace GdcDemo

/-- Embedding of the pydantic model `SignalsReport` (signals_report.py:33):
`report_id` is the unique id, `report_date` the sort key (a calendar date,
embedded as its day ordinal), and `payload` stands for the remaining schema
fields, which the store never inspects. -/
structure SignalsReport where
  report_id : String
  report_date : Nat
  payload : String
  deriving DecidableEq

/-- Embedding of the pydantic model `FraudReport` (fraud_report.py:21):
same store-relevant shape as `SignalsReport`.  In the source the
`report_date` is an ISO date string; its lexicographic order equals
chronological order, so it is embedded as a day ordinal as well. -/
structure FraudReport where
  report_id : String
  report_date : Nat
  payload : String
  deriving DecidableEq

/-- Embedding of `xs.sort(key=lambda x: x.report_date, reverse=True)`
(report_manager.py:50,101,116 and report_service.py:32): a stable sort
putting the largest `key` first.  The source's sort is a stable sort whose
particular algorithm the store's behavior never depends on; it is embedded
as a stable insertion sort so that the model also evaluates on concrete
inputs. -/
def sortDescendingBy {α : Type} (key : α → Nat) (rs : List α) : List α :=
  rs.insertionSort (fun a b => key b ≤ key a)

/-- The collection is ordered by `key` descending (the store invariant the
sort calls are meant to restore). -/
def SortedDescBy {α : Type} (key : α → Nat) (rs : List α) : Prop :=
  rs.Pairwise (fun a b => key b ≤ key a)

instance {α : Type} (key : α → Nat) (rs : List α) : Decidable (SortedDescBy key rs) := by
  unfold SortedDescBy
  infer_instance

/-- One entry of the JSON array in a seed file, as the external schema
validator (`Model(**report)`, pydantic) disposes of it: either the
validated record or a validation failure. -/
inductive RawRecord (α : Type) where
  | valid (r : α)
  | invalid
  deriving DecidableEq

/-- Contents of a seed file as the loaders see it: absent on disk, present
but not parseable as JSON (`json.JSONDecodeError`), or a JSON array of raw
entries. -/
inductive SeedFile (α : Type) where
  | missing
  | malformed
  | records (raws : List (RawRecord α))
  deriving DecidableEq

/-- Embedding of the comprehension `[Model(**report) for report in reports_data]`
(report_manager.py:63, report_service.py:47): entries are validated left to
right and the first validation failure aborts the whole comprehension with
that exception — no partially validated list survives. -/
def validateAll {α : Type} : List (RawRecord α) → Except Unit (List α)
  | [] => Except.ok []
  | RawRecord.invalid :: _ => Except.error ()
  | RawRecord.valid r :: raws => (validateAll raws).map (fun rs => r :: rs)

/-- User-visible banners the signals loader can emit: `st.warning` or
`st.error`.  Both render a message and let the page run on; neither stops
the script (that would be `st.stop`, which the loader never calls). -/
inductive UiMsg where
  | warning
  | error
  deriving DecidableEq

/-- Exceptions that can escape the fraud-variant constructor: a pydantic
`ValidationError` (not caught by `_load_reports`) or the `ValueError` that
`random.sample` raises when the population is smaller than the sample. -/
inductive PyError where
  | validationError
  | valueError
  deriving DecidableEq

/-- Abstract interface of `random.sample(population, k)` for
`k ≤ len(population)`: the result has exactly `k` elements and consists of
distinct positions of the population, in some order.  Store operations are
verified for every sampler satisfying this, covering every outcome of the
library call. -/
def ValidSampler {α : Type} (sample : List α → Nat → List α) : Prop :=
  ∀ pop k, k ≤ pop.length → (sample pop k).length = k ∧ (sample pop k).Subperm pop

/-- Deterministic sampler used to evaluate the model on concrete inputs:
it picks the first `k` elements.  It satisfies `ValidSampler`
(`validSampler_take` below). -/
def takeSampler {α : Type} (pop : List α) (k : Nat) : List α :=
  pop.take k

/-- Embedding of `ReportManager._load_initial_reports`
(report_manager.py:52-84): a missing file yields the empty list and a
`st.warning` banner; a JSON parse failure or a record failing validation is
caught and yields the empty list and a `st.error` banner; an empty (or
validated-to-empty) array yields the empty list and a `st.warning` banner;
otherwise the result is `random.sample(reports, min(50, len(reports)))`. -/
def loadInitialReports (sample : List SignalsReport → Nat → List SignalsReport) :
    SeedFile SignalsReport → List SignalsReport × List UiMsg
  | SeedFile.missing => ([], [UiMsg.warning])
  | SeedFile.malformed => ([], [UiMsg.error])
  | SeedFile.records raws =>
    match validateAll raws with
    | Except.error _ => ([], [UiMsg.error])
    | Except.ok reports =>
      if reports.isEmpty then ([], [UiMsg.warning])
      else (sample reports (min 50 reports.length), [])

/-- Embedding of `ReportManager.get_report_ids` (report_manager.py:104-106):
the set of ids of the given current collection. -/
def getReportIds (reports : List SignalsReport) : Finset String :=
  (reports.map SignalsReport.report_id).toFinset

/-- Embedding of `ReportManager._generate_unique_report`
(report_manager.py:90-95): the `while True` loop draws candidates from the
external generator until one has an id not in `get_report_ids()`.  The
generator is embedded as the finite list of candidates it returns on
successive calls; `none` is the run in which no fresh candidate appears in
that list (the loop would still be running).  The unconsumed suffix is
returned so later calls continue with the remaining candidates. -/
def generateUniqueReport (reports : List SignalsReport) :
    List SignalsReport → Option (SignalsReport × List SignalsReport)
  | [] => none
  | c :: cands =>
    if c.report_id ∈ getReportIds reports then generateUniqueReport reports cands
    else some (c, cands)

/-- Embedding of the comprehension
`[self._generate_unique_report() for _ in range(n)]` (report_manager.py:44):
`n` sequential retry loops, each checked against the same `self.reports`
(which stays the old — empty — list for the whole comprehension), threading
the candidate list through.  `none` is a run in which some loop never
finished; the surrounding `except` then discards all partial results. -/
def generateBatch (reports cands : List SignalsReport) : Nat → Option (List SignalsReport)
  | 0 => some []
  | Nat.succ n =>
    match generateUniqueReport reports cands with
    | none => none
    | some (r, rest) =>
      match generateBatch reports rest n with
      | none => none
      | some rs => some (r :: rs)

/-- State of a `ReportManager` as persisted in
`st.session_state[reports_key]`: the current ordered collection. -/
structure ManagerState where
  reports : List SignalsReport
  deriving DecidableEq

/-- Embedding of `ReportManager.__init__` (report_manager.py:23-50):
rehydrate the collection from session state when present, otherwise load it
from the seed file; if the resulting collection is empty, try to generate
50 reports through the uniqueness retry loop (falling back to the empty
collection when generation fails); finally sort by `report_date`
descending. -/
def managerInit (sample : List SignalsReport → Nat → List SignalsReport)
    (session : Option (List SignalsReport)) (file : SeedFile SignalsReport)
    (cands : List SignalsReport) : ManagerState :=
  let loaded :=
    match session with
    | some rs => rs
    | none => (loadInitialReports sample file).1
  let reports :=
    if loaded.isEmpty then
      match generateBatch loaded cands 50 with
      | some rs => rs
      | none => []
    else loaded
  ⟨sortDescendingBy SignalsReport.report_date reports⟩

/-- Embedding of `ReportManager.get_all_reports` (report_manager.py:86-88):
returns the live collection. -/
def getAllReports (s : ManagerState) : List SignalsReport :=
  s.reports

/-- Embedding of `ReportManager.generate_new_report`
(report_manager.py:97-102): draw one fresh record through the uniqueness
retry loop, append it and re-sort descending; the unconsumed candidates are
returned alongside.  `none` is the run in which the retry loop never
finished. -/
def generateNewReport (cands : List SignalsReport) (s : ManagerState) :
    Option (ManagerState × List SignalsReport) :=
  match generateUniqueReport s.reports cands with
  | none => none
  | some (r, rest) =>
    some (⟨sortDescendingBy SignalsReport.report_date (s.reports ++ [r])⟩, rest)

/-- Embedding of `ReportManager.reset_the_reports`
(report_manager.py:108-117): a no-op when `reports_number` is at least the
current size, otherwise `random.sample(self.reports, reports_number)` —
drawn from the current in-memory collection — followed by the descending
sort. -/
def resetTheReports (sample : List SignalsReport → Nat → List SignalsReport)
    (s : ManagerState) (reportsNumber : Nat) : ManagerState :=
  if s.reports.length ≤ reportsNumber then s
  else ⟨sortDescendingBy SignalsReport.report_date (sample s.reports reportsNumber)⟩

/-- Modelled from the spec: `ReportManager.get_report_by_id` is called at
app_content.py:329 and app_content.py:486 but its definition is missing
from the sources; per spec §4.1, `get_by_id(id)` is a linear lookup
returning the record with that id, or none. -/
def getReportById (s : ManagerState) (rid : String) : Option SignalsReport :=
  s.reports.find? (fun r => r.report_id == rid)

/-- Embedding of the lookup in `report_selection_page` (main.py:189):
`next((r for r in all_reports if r.report_id == selected_report_id), None)`
— the first report of the list with the requested id, or none. -/
def findReportById (reports : List FraudReport) (rid : String) : Option FraudReport :=
  reports.find? (fun r => r.report_id == rid)

/-- One mutation of the signals store, as triggered by the UI: an append of
a generated record (with the candidate list the external generator returns
for it) or a user-triggered reset. -/
inductive StoreOp where
  | append (cands : List SignalsReport)
  | shrink (n : Nat)

/-- Application of one mutation to the store.  A generation run that never
finds a fresh candidate appends nothing and leaves the store unchanged. -/
def applyOp (sample : List SignalsReport → Nat → List SignalsReport)
    (s : ManagerState) : StoreOp → ManagerState
  | StoreOp.append cands =>
    match generateNewReport cands s with
    | none => s
    | some (s2, _) => s2
  | StoreOp.shrink n => resetTheReports sample s n

/-- A sequence of mutations applied in order. -/
def runOps (sample : List SignalsReport → Nat → List SignalsReport)
    (s : ManagerState) : List StoreOp → ManagerState
  | [] => s
  | op :: ops => runOps sample (applyOp sample s op) ops

/-- State of a `ReportService`: the current ordered collection of fraud
reports. -/
structure ServiceState where
  reports : List FraudReport
  deriving DecidableEq

/-- Embedding of `ReportService._load_reports` (report_service.py:41-54):
a missing file or a JSON parse failure is caught and yields the empty
list; but only `json.JSONDecodeError` and `FileNotFoundError` are caught,
so a pydantic `ValidationError` raised by the comprehension escapes. -/
def serviceLoadReports : SeedFile FraudReport → Except PyError (List FraudReport)
  | SeedFile.missing => Except.ok []
  | SeedFile.malformed => Except.ok []
  | SeedFile.records raws =>
    match validateAll raws with
    | Except.error _ => Except.error PyError.validationError
    | Except.ok reports => Except.ok reports

/-- Embedding of `ReportService.__init__` (report_service.py:26-32): load
the file, then unconditionally `random.sample(self.reports, 10)` — which
raises `ValueError` when fewer than 10 reports were loaded — then sort
descending.  The result is the constructed state, or the exception that
escaped the constructor. -/
def serviceInit (sample : List FraudReport → Nat → List FraudReport)
    (file : SeedFile FraudReport) : Except PyError ServiceState :=
  match serviceLoadReports file with
  | Except.error e => Except.error e
  | Except.ok loaded =>
    if 10 ≤ loaded.length then
      Except.ok ⟨sortDescendingBy FraudReport.report_date (sample loaded 10)⟩
    else Except.error PyError.valueError

/-- Embedding of `ReportService.get_all_reports` (report_service.py:56-58):
returns the live collection. -/
def serviceGetAllReports (s : ServiceState) : List FraudReport :=
  s.reports

/-- Embedding of `ReportService.generate_new_report`
(report_service.py:60-98): the freshly generated report `fr` — whose
`report_id` is a new random uuid draw, assigned without consulting the
existing collection — is appended as-is; there is no re-sort and no
id-uniqueness check. -/
def serviceGenerateNewReport (fr : FraudReport) (s : ServiceState) : ServiceState :=
  ⟨s.reports ++ [fr]⟩

/-- Modelled from the spec: the Refresh Scheduler of spec §4.2 has no
counterpart under src/ (no polling loop appears in the sources).  Per the
spec, each cycle first checks the cap (observed: 500): at or above it the
scheduler stops permanently for this instance without calling the
generator; below it the cycle calls `append_generated` once (a failed
generation appends nothing and the next cycle still fires) and suspends
until the next cycle.  `genCalls` counts the generation calls made. -/
structure SchedulerState where
  store : ManagerState
  stopped : Bool
  genCalls : Nat
  deriving DecidableEq

/-- Modelled from the spec: the observed collection-size cap of the
Refresh Scheduler. -/
def schedulerCap : Nat := 500

/-- Modelled from the spec: one scheduler cycle (see `SchedulerState`). -/
def schedulerCycle (cands : List SignalsReport) (s : SchedulerState) : SchedulerState :=
  if s.stopped then s
  else if schedulerCap ≤ s.store.reports.length then
    ⟨s.store, true, s.genCalls⟩
  else
    match generateNewReport cands s.store with
    | none => ⟨s.store, false, s.genCalls + 1⟩
    | some (st, _) => ⟨st, false, s.genCalls + 1⟩

/-- Modelled from the spec: `n` consecutive scheduler cycles. -/
def schedulerRun (cands : List SignalsReport) (s : SchedulerState) : Nat → SchedulerState
  | 0 => s
  | Nat.succ n => schedulerRun cands (schedulerCycle cands s) n

/-- Concrete signals record number `i`: id and payload are the decimal
rendering of `i`, the date is `i` itself. -/
def mkSR (i : Nat) : SignalsReport :=
  ⟨toString i, i, toString i⟩

/-- Concrete fraud record number `i`, shaped like `mkSR`. -/
def mkFR (i : Nat) : FraudReport :=
  ⟨toString i, i, toString i⟩

/-- A well-formed seed array of 51 valid signals records with pairwise
distinct ids. -/
def raws51 : List (RawRecord SignalsReport) :=
  (List.range 51).map (fun i => RawRecord.valid (mkSR i))

/-- The 51 records of `raws51`. -/
def seed51 : List SignalsReport :=
  (List.range 51).map mkSR

/-- A well-formed seed array of 3 valid signals records. -/
def demoRaws3 : List (RawRecord SignalsReport) :=
  (List.range 3).map (fun i => RawRecord.valid (mkSR i))

/-- The 3 records of `demoRaws3`. -/
def demoSeed3 : List SignalsReport :=
  (List.range 3).map mkSR

/-- A well-formed seed array of 2 valid signals records. -/
def seedRaws2 : List (RawRecord SignalsReport) :=
  [RawRecord.valid (mkSR 1), RawRecord.valid (mkSR 2)]

/-- The 2 records of `seedRaws2` — the original seed population of the
shrink counterexample. -/
def demoSeedReports : List SignalsReport :=
  [mkSR 1, mkSR 2]

/-- A generated record not occurring in `demoSeedReports`. -/
def genCand : SignalsReport :=
  mkSR 9

/-- The signals store initialized from the 2-record seed file on a fresh
session. -/
def demoInitState : ManagerState :=
  managerInit takeSampler none (SeedFile.records seedRaws2) []

/-- The store after one `generate_new_report` append of `genCand`: its
collection now holds a record that is not part of the seed population. -/
def demoAppendedState : ManagerState :=
  runOps takeSampler demoInitState [StoreOp.append [genCand]]

/-- A well-formed seed array of 10 valid fraud records. -/
def fraudRaws10 : List (RawRecord FraudReport) :=
  (List.range 10).map (fun i => RawRecord.valid (mkFR i))

/-- The fraud store built by `serviceInit` from `fraudRaws10` with the
`takeSampler`: all 10 records, sorted by date descending. -/
def demoServiceState : ServiceState :=
  ⟨((List.range 10).reverse).map mkFR⟩

/-- A freshly generated fraud report more recent than everything in
`demoServiceState`. -/
def frNew : FraudReport :=
  mkFR 99

/-- A freshly generated fraud report whose random id draw collides with an
id already present in `demoServiceState` (its date differs). -/
def frDup : FraudReport :=
  ⟨toString 0, 42, toString 42⟩

/-- A signals store holding 500 records — exactly the scheduler cap. -/
def bigStore : ManagerState :=
  ⟨(List.range 500).map mkSR⟩

/-- A seed array in which the second entry fails schema validation. -/
def badRaws : List (RawRecord SignalsReport) :=
  [RawRecord.valid (mkSR 1), RawRecord.invalid]

/-- A fraud seed array whose only entry fails schema validation. -/
def fraudBadRaws : List (RawRecord FraudReport) :=
  [RawRecord.invalid]

/-- A well-formed fraud seed array with only 3 valid records — fewer than
the 10 that `ReportService.__init__` unconditionally samples. -/
def fraudRaws3 : List (RawRecord FraudReport) :=
  (List.range 3).map (fun i => RawRecord.valid (mkFR i))

end GdcDemo

namespace GdcDemo

/-! ## General lemmas about sampling, sorting and the retry loop -/

/-- The deterministic `takeSampler` is one valid outcome of `random.sample`. -/
theorem validSampler_take {α : Type} : ValidSampler (@takeSampler α) := by
  intro pop k hk
  constructor
  · rw [takeSampler, List.length_take]
    exact Nat.min_eq_left hk
  · exact (List.take_sublist k pop).subperm

/-- Sorting permutes the collection. -/
theorem sortDescendingBy_perm {α : Type} (key : α → Nat) (rs : List α) :
    (sortDescendingBy key rs).Perm rs :=
  List.perm_insertionSort _ rs

/-- Sorting establishes the descending-order invariant. -/
theorem sortedDescBy_sortDescendingBy {α : Type} (key : α → Nat) (rs : List α) :
    SortedDescBy key (sortDescendingBy key rs) := by
  haveI : IsTotal α (fun a b => key b ≤ key a) := ⟨fun a b => Nat.le_total (key b) (key a)⟩
  haveI : IsTrans α (fun a b => key b ≤ key a) := ⟨fun a b c h₁ h₂ => Nat.le_trans h₂ h₁⟩
  exact List.sorted_insertionSort _ rs

/-- Mapping preserves sub-permutations. -/
theorem subperm_map {α β : Type} (f : α → β) {l₁ l₂ : List α} (h : l₁.Subperm l₂) :
    (l₁.map f).Subperm (l₂.map f) := by
  obtain ⟨l, hp, hs⟩ := h
  exact ⟨l.map f, hp.map f, hs.map f⟩

/-- A sub-permutation of a duplicate-free list is duplicate-free. -/
theorem nodup_of_subperm {α : Type} {l₁ l₂ : List α} (h : l₁.Subperm l₂)
    (hn : l₂.Nodup) : l₁.Nodup := by
  obtain ⟨l, hp, hs⟩ := h
  exact hp.nodup_iff.mp (List.Nodup.sublist hs hn)

/-- The uniqueness retry loop only ever returns a record whose id is fresh
with respect to the collection it was checked against. -/
theorem generateUniqueReport_fresh (reports : List SignalsReport) :
    ∀ (cands : List SignalsReport) (r : SignalsReport) (cs : List SignalsReport),
      generateUniqueReport reports cands = some (r, cs) →
      r.report_id ∉ getReportIds reports := by
  intro cands
  induction cands with
  | nil =>
    intro r cs h
    simp [generateUniqueReport] at h
  | cons c cands ih =>
    intro r cs h
    by_cases hc : c.report_id ∈ getReportIds reports
    · rw [generateUniqueReport, if_pos hc] at h
      exact ih r cs h
    · rw [generateUniqueReport, if_neg hc] at h
      simp only [Option.some.injEq, Prod.mk.injEq] at h
      obtain ⟨rfl, rfl⟩ := h
      exact hc

/-- Shape of a successful `generate_new_report` call: some fresh record was
found and the new collection is the re-sorted append of it. -/
theorem generateNewReport_some (cands : List SignalsReport) (s s2 : ManagerState)
    (cs : List SignalsReport) (h : generateNewReport cands s = some (s2, cs)) :
    ∃ r, generateUniqueReport s.reports cands = some (r, cs) ∧
      s2.reports = sortDescendingBy SignalsReport.report_date (s.reports ++ [r]) := by
  unfold generateNewReport at h
  cases hg : generateUniqueReport s.reports cands with
  | none =>
    rw [hg] at h
    exact absurd h (by simp)
  | some p =>
    obtain ⟨r, rest⟩ := p
    rw [hg] at h
    simp only [Option.some.injEq, Prod.mk.injEq] at h
    obtain ⟨h₁, rfl⟩ := h
    exact ⟨r, rfl, by rw [← h₁]⟩


end GdcDemo

namespace GdcDemo

/-! ## Invariant preservation across store operations -/

/-- Initialization sorts the collection, whichever branch produced it. -/
theorem sortedDescBy_managerInit (sample : List SignalsReport → Nat → List SignalsReport)
    (session : Option (List SignalsReport)) (file : SeedFile SignalsReport)
    (cands : List SignalsReport) :
    SortedDescBy SignalsReport.report_date (managerInit sample session file cands).reports := by
  unfold managerInit
  exact sortedDescBy_sortDescendingBy _ _

/-- One store mutation keeps the collection sorted descending. -/
theorem sortedDescBy_applyOp (sample : List SignalsReport → Nat → List SignalsReport)
    (s : ManagerState) (op : StoreOp)
    (h : SortedDescBy SignalsReport.report_date s.reports) :
    SortedDescBy SignalsReport.report_date (applyOp sample s op).reports := by
  cases op with
  | append cands =>
    simp only [applyOp]
    cases hg : generateNewReport cands s with
    | none => exact h
    | some p =>
      obtain ⟨s2, cs⟩ := p
      obtain ⟨r, _, hs2⟩ := generateNewReport_some cands s s2 cs hg
      rw [hs2]
      exact sortedDescBy_sortDescendingBy _ _
  | shrink n =>
    simp only [applyOp, resetTheReports]
    split
    · exact h
    · exact sortedDescBy_sortDescendingBy _ _

/-- Any sequence of store mutations keeps the collection sorted descending. -/
theorem sortedDescBy_runOps (sample : List SignalsReport → Nat → List SignalsReport) :
    ∀ (ops : List StoreOp) (s : ManagerState),
      SortedDescBy SignalsReport.report_date s.reports →
      SortedDescBy SignalsReport.report_date (runOps sample s ops).reports := by
  intro ops
  induction ops with
  | nil => intro s h; exact h
  | cons op ops ih =>
    intro s h
    exact ih _ (sortedDescBy_applyOp sample s op h)

/-- One store mutation keeps the record ids pairwise distinct. -/
theorem nodupIds_applyOp (sample : List SignalsReport → Nat → List SignalsReport)
    (hs : ValidSampler sample) (s : ManagerState) (op : StoreOp)
    (h : (s.reports.map SignalsReport.report_id).Nodup) :
    ((applyOp sample s op).reports.map SignalsReport.report_id).Nodup := by
  cases op with
  | append cands =>
    simp only [applyOp]
    cases hg : generateNewReport cands s with
    | none => exact h
    | some p =>
      obtain ⟨s2, cs⟩ := p
      obtain ⟨r, hr, hs2⟩ := generateNewReport_some cands s s2 cs hg
      have hfresh : r.report_id ∉ s.reports.map SignalsReport.report_id := by
        have hmem := generateUniqueReport_fresh s.reports cands r cs hr
        simpa [getReportIds, List.mem_toFinset] using hmem
      rw [hs2]
      rw [List.Perm.nodup_iff
        ((sortDescendingBy_perm SignalsReport.report_date (s.reports ++ [r])).map
          SignalsReport.report_id)]
      rw [List.map_append]
      refine List.Nodup.append h (by simp) ?_
      rw [List.map_singleton, List.disjoint_singleton]
      exact hfresh
  | shrink n =>
    simp only [applyOp, resetTheReports]
    split
    · exact h
    · next hc =>
      have hn : n ≤ s.reports.length := by omega
      obtain ⟨hlen, hsub⟩ := hs s.reports n hn
      rw [List.Perm.nodup_iff
        ((sortDescendingBy_perm SignalsReport.report_date (sample s.reports n)).map
          SignalsReport.report_id)]
      exact nodup_of_subperm (subperm_map SignalsReport.report_id hsub) h

/-- Any sequence of store mutations keeps the record ids pairwise distinct. -/
theorem nodupIds_runOps (sample : List SignalsReport → Nat → List SignalsReport)
    (hs : ValidSampler sample) :
    ∀ (ops : List StoreOp) (s : ManagerState),
      (s.reports.map SignalsReport.report_id).Nodup →
      ((runOps sample s ops).reports.map SignalsReport.report_id).Nodup := by
  intro ops
  induction ops with
  | nil => intro s h; exact h
  | cons op ops ih =>
    intro s h
    exact ih _ (nodupIds_applyOp sample hs s op h)

end GdcDemo

namespace GdcDemo

/-! ## Lemmas about loading, shrinking and the scheduler -/

/-- A seed array containing an entry that fails validation makes the whole
comprehension fail. -/
theorem validateAll_error_of_mem {α : Type} :
    ∀ (raws : List (RawRecord α)), RawRecord.invalid ∈ raws →
      validateAll raws = Except.error () := by
  intro raws
  induction raws with
  | nil =>
    intro h
    simp at h
  | cons raw raws ih =>
    intro h
    cases raw with
    | invalid => rfl
    | valid r =>
      have hmem : RawRecord.invalid ∈ raws := by
        rcases List.mem_cons.mp h with h1 | h2
        · exact absurd h1 (by simp)
        · exact h2
      simp [validateAll, ih hmem, Except.map]

/-- On a seed array that validates to a nonempty record list, the signals
loader returns the `min 50`-sized sample of the validated records and emits
no banner. -/
theorem loadInitialReports_records_ok (sample : List SignalsReport → Nat → List SignalsReport)
    (raws : List (RawRecord SignalsReport)) (rs : List SignalsReport)
    (hok : validateAll raws = Except.ok rs) (hne : rs ≠ []) :
    loadInitialReports sample (SeedFile.records raws)
      = (sample rs (min 50 rs.length), []) := by
  simp only [loadInitialReports, hok]
  rw [if_neg]
  simp [List.isEmpty_iff, hne]

/-- On a fresh session with such a seed array, initialization is the sorted
sample of the validated records. -/
theorem managerInit_records_ok (sample : List SignalsReport → Nat → List SignalsReport)
    (raws : List (RawRecord SignalsReport)) (rs cands : List SignalsReport)
    (hok : validateAll raws = Except.ok rs) (hne : rs ≠ [])
    (hsne : sample rs (min 50 rs.length) ≠ []) :
    managerInit sample none (SeedFile.records raws) cands
      = ⟨sortDescendingBy SignalsReport.report_date (sample rs (min 50 rs.length))⟩ := by
  unfold managerInit
  rw [loadInitialReports_records_ok sample raws rs hok hne]
  simp [List.isEmpty_iff, hsne]

/-- Shrinking to at least the current size is a no-op on the whole state. -/
theorem resetTheReports_noop (sample : List SignalsReport → Nat → List SignalsReport)
    (s : ManagerState) (n : Nat) (h : s.reports.length ≤ n) :
    resetTheReports sample s n = s := by
  unfold resetTheReports
  rw [if_pos h]

/-- Shrinking below the current size yields exactly `n` records drawn from
the current collection, sorted descending. -/
theorem resetTheReports_shrink (sample : List SignalsReport → Nat → List SignalsReport)
    (hs : ValidSampler sample) (s : ManagerState) (n : Nat)
    (hn : n < s.reports.length) :
    (resetTheReports sample s n).reports.length = n ∧
    (resetTheReports sample s n).reports.Subperm s.reports ∧
    SortedDescBy SignalsReport.report_date (resetTheReports sample s n).reports := by
  have hcond : ¬ s.reports.length ≤ n := by omega
  obtain ⟨hlen, hsub⟩ := hs s.reports n (le_of_lt hn)
  unfold resetTheReports
  rw [if_neg hcond]
  refine ⟨?_, ?_, sortedDescBy_sortDescendingBy _ _⟩
  · exact ((sortDescendingBy_perm _ _).length_eq).trans hlen
  · exact ((sortDescendingBy_perm _ _).subperm).trans hsub

/-- A stopped scheduler instance stays stopped and makes no further call:
the terminal state of the cap check. -/
theorem schedulerRun_stopped (cands : List SignalsReport) :
    ∀ (n : Nat) (store : ManagerState) (k : Nat),
      schedulerRun cands ⟨store, true, k⟩ n = ⟨store, true, k⟩ := by
  intro n
  induction n with
  | zero => intro store k; rfl
  | succ n ih =>
    intro store k
    show schedulerRun cands (schedulerCycle cands ⟨store, true, k⟩) n = _
    have hcyc : schedulerCycle cands ⟨store, true, k⟩ = ⟨store, true, k⟩ := by
      simp [schedulerCycle]
    rw [hcyc]
    exact ih store k

end GdcDemo

namespace GdcDemo

/-! ## The claims -/

/-- C1 (as stated, refuted): on the well-formed 51-record seed file
`raws51` (all records valid, ids pairwise distinct), the freshly
initialized store's `get_all()` has 50 records, not `k = 51` — the loader
down-samples to `min(50, k)` before the store ever sees the data. -/
theorem c1_counterexample :
    ValidSampler (@takeSampler SignalsReport) ∧
    validateAll raws51 = Except.ok seed51 ∧
    seed51.length = 51 ∧
    (seed51.map SignalsReport.report_id).Nodup ∧
    (getAllReports (managerInit takeSampler none (SeedFile.records raws51) [])).length = 50 ∧
    (getAllReports (managerInit takeSampler none (SeedFile.records raws51) [])).length ≠ 51 :=
  ⟨validSampler_take, rfl, by decide, by decide, by decide, by decide⟩

/-- C1 (amended): for every load of a well-formed, nonempty seed file whose
`k` records carry pairwise distinct ids, and every outcome of the random
down-sampling, `get_all()` on the freshly initialized store returns exactly
`min 50 k` records, each id unique, sorted by `report_date` descending. -/
theorem c1_amended_load_count (sample : List SignalsReport → Nat → List SignalsReport)
    (raws : List (RawRecord SignalsReport)) (rs cands : List SignalsReport)
    (hs : ValidSampler sample) (hok : validateAll raws = Except.ok rs) (hne : rs ≠ [])
    (hnd : (rs.map SignalsReport.report_id).Nodup) :
    (getAllReports (managerInit sample none (SeedFile.records raws) cands)).length
        = min 50 rs.length ∧
    ((getAllReports (managerInit sample none (SeedFile.records raws) cands)).map
        SignalsReport.report_id).Nodup ∧
    SortedDescBy SignalsReport.report_date
      (getAllReports (managerInit sample none (SeedFile.records raws) cands)) := by
  obtain ⟨hlen, hsub⟩ := hs rs (min 50 rs.length) (min_le_right 50 rs.length)
  have hpos : 0 < rs.length := List.length_pos.mpr hne
  have hsne : sample rs (min 50 rs.length) ≠ [] := by
    intro h0
    rw [h0] at hlen
    have hmin : 0 < min 50 rs.length := lt_min (by norm_num) hpos
    simp at hlen
    omega
  rw [managerInit_records_ok sample raws rs cands hok hne hsne]
  simp only [getAllReports]
  refine ⟨((sortDescendingBy_perm _ _).length_eq).trans hlen, ?_, ?_⟩
  · rw [List.Perm.nodup_iff
      ((sortDescendingBy_perm SignalsReport.report_date _).map SignalsReport.report_id)]
    exact nodup_of_subperm (subperm_map SignalsReport.report_id hsub) hnd
  · exact sortedDescBy_sortDescendingBy _ _

/-- C1 witness: the amended statement evaluated on the concrete 3-record
seed file `demoRaws3` with the concrete sampler `takeSampler`. -/
theorem c1_witness :
    (getAllReports (managerInit (@takeSampler SignalsReport) none
        (SeedFile.records demoRaws3) [])).length = min 50 demoSeed3.length ∧
    ((getAllReports (managerInit takeSampler none (SeedFile.records demoRaws3) [])).map
        SignalsReport.report_id).Nodup ∧
    SortedDescBy SignalsReport.report_date
      (getAllReports (managerInit takeSampler none (SeedFile.records demoRaws3) [])) :=
  c1_amended_load_count takeSampler demoRaws3 demoSeed3 [] validSampler_take rfl
    (by decide) (by decide)

end GdcDemo

namespace GdcDemo

/-- C2 (as stated, refuted): `demoAppendedState` is reached from the
2-record seed file by one `generate_new_report` append; shrinking it to 1
record can return the appended record `genCand = mkSR 9`, which is not in
the original seed population — `reset_the_reports` samples from the
current in-memory collection, it never reloads the seed file. -/
theorem c2_counterexample :
    ValidSampler (@takeSampler SignalsReport) ∧
    validateAll seedRaws2 = Except.ok demoSeedReports ∧
    demoAppendedState
      = runOps takeSampler (managerInit takeSampler none (SeedFile.records seedRaws2) [])
          [StoreOp.append [genCand]] ∧
    1 < demoAppendedState.reports.length ∧
    (resetTheReports takeSampler demoAppendedState 1).reports.length = 1 ∧
    ¬ (∀ r ∈ (resetTheReports takeSampler demoAppendedState 1).reports,
        r ∈ demoSeedReports) :=
  ⟨validSampler_take, rfl, rfl, by decide, by decide, by decide⟩

/-- C2 (amended): for every call `shrink_to(n)` with `n` strictly below the
current size and every outcome of the random sampling, the resulting
collection has exactly `n` records, every one of them drawn from the
current, possibly-appended, in-memory population, and is sorted by
`report_date` descending. -/
theorem c2_amended_shrink (sample : List SignalsReport → Nat → List SignalsReport)
    (hs : ValidSampler sample) (s : ManagerState) (n : Nat)
    (hn : n < s.reports.length) :
    (resetTheReports sample s n).reports.length = n ∧
    (resetTheReports sample s n).reports.Subperm s.reports ∧
    SortedDescBy SignalsReport.report_date (resetTheReports sample s n).reports :=
  resetTheReports_shrink sample hs s n hn

/-- C2 witness: the amended statement evaluated on the concrete appended
store `demoAppendedState` with the concrete sampler `takeSampler`. -/
theorem c2_witness :
    (resetTheReports (@takeSampler SignalsReport) demoAppendedState 1).reports.length = 1 ∧
    (resetTheReports takeSampler demoAppendedState 1).reports.Subperm
      demoAppendedState.reports ∧
    SortedDescBy SignalsReport.report_date
      (resetTheReports takeSampler demoAppendedState 1).reports :=
  c2_amended_shrink takeSampler validSampler_take demoAppendedState 1 (by decide)

end GdcDemo

namespace GdcDemo

/-- C3 (as stated, refuted): in the fraud variant, the collection built by
`ReportService.__init__` from `fraudRaws10` is sorted descending, but one
`generate_new_report` append of the more recent report `frNew` leaves the
collection unsorted — `ReportService.generate_new_report` appends without
re-sorting. -/
theorem c3_counterexample :
    serviceInit (@takeSampler FraudReport) (SeedFile.records fraudRaws10)
      = Except.ok demoServiceState ∧
    SortedDescBy FraudReport.report_date (serviceGetAllReports demoServiceState) ∧
    ¬ SortedDescBy FraudReport.report_date
        (serviceGetAllReports (serviceGenerateNewReport frNew demoServiceState)) :=
  ⟨rfl, by decide, by decide⟩

/-- C3 (amended): in the signals variant the collection is sorted by
`report_date` descending after initialization and after every sequence of
appends and shrinks — in particular after each `append_generated` call; in
the fraud variant this holds after construction, but not after its appends
(see the counterexample). -/
theorem c3_amended_sorted :
    (∀ (sample : List SignalsReport → Nat → List SignalsReport)
        (session : Option (List SignalsReport)) (file : SeedFile SignalsReport)
        (cands : List SignalsReport) (ops : List StoreOp),
      SortedDescBy SignalsReport.report_date
        (runOps sample (managerInit sample session file cands) ops).reports) ∧
    (∀ (sample : List FraudReport → Nat → List FraudReport)
        (file : SeedFile FraudReport) (st : ServiceState),
      serviceInit sample file = Except.ok st →
      SortedDescBy FraudReport.report_date st.reports) := by
  constructor
  · intro sample session file cands ops
    exact sortedDescBy_runOps sample ops _
      (sortedDescBy_managerInit sample session file cands)
  · intro sample file st h
    unfold serviceInit at h
    cases hl : serviceLoadReports file with
    | error e =>
      rw [hl] at h
      exact absurd h (by simp)
    | ok loaded =>
      rw [hl] at h
      dsimp only at h
      by_cases hc : 10 ≤ loaded.length
      · rw [if_pos hc] at h
        simp only [Except.ok.injEq] at h
        rw [← h]
        exact sortedDescBy_sortDescendingBy _ _
      · rw [if_neg hc] at h
        exact absurd h (by simp)

/-- C3 witness: the amended statement evaluated on the concrete 3-record
seed file, one concrete append and one concrete shrink, and on the concrete
fraud store construction. -/
theorem c3_witness :
    SortedDescBy SignalsReport.report_date
      (runOps (@takeSampler SignalsReport)
        (managerInit takeSampler none (SeedFile.records demoRaws3) [])
        [StoreOp.append [genCand], StoreOp.shrink 2]).reports ∧
    SortedDescBy FraudReport.report_date demoServiceState.reports :=
  ⟨c3_amended_sorted.1 takeSampler none (SeedFile.records demoRaws3) []
      [StoreOp.append [genCand], StoreOp.shrink 2],
   c3_amended_sorted.2 takeSampler (SeedFile.records fraudRaws10) demoServiceState rfl⟩

/-- C4 (as stated, refuted): the fraud store `demoServiceState` has
pairwise distinct ids, yet one `generate_new_report` append whose random
uuid draw collides with an existing id (`frDup`) produces a collection with
a duplicated id — `ReportService.generate_new_report` inserts the record
without any uniqueness check or retry. -/
theorem c4_counterexample :
    serviceInit (@takeSampler FraudReport) (SeedFile.records fraudRaws10)
      = Except.ok demoServiceState ∧
    ((serviceGetAllReports demoServiceState).map FraudReport.report_id).Nodup ∧
    frDup.report_id ∈ (serviceGetAllReports demoServiceState).map FraudReport.report_id ∧
    ¬ ((serviceGetAllReports (serviceGenerateNewReport frDup demoServiceState)).map
        FraudReport.report_id).Nodup :=
  ⟨rfl, by decide, by decide, by decide⟩

/-- C4 (amended): in the signals variant the uniqueness retry loop only
returns a record whose id differs from every existing id, and — for every
outcome of the random sampling — every sequence of appends and shrinks
starting from a collection with pairwise distinct ids preserves
id-uniqueness; the fraud variant's append performs no such check (see the
counterexample). -/
theorem c4_amended_unique_ids :
    (∀ (reports cands : List SignalsReport) (r : SignalsReport)
        (cs : List SignalsReport),
      generateUniqueReport reports cands = some (r, cs) →
      r.report_id ∉ getReportIds reports) ∧
    (∀ (sample : List SignalsReport → Nat → List SignalsReport),
      ValidSampler sample →
      ∀ (s : ManagerState) (ops : List StoreOp),
        ((getAllReports s).map SignalsReport.report_id).Nodup →
        ((getAllReports (runOps sample s ops)).map SignalsReport.report_id).Nodup) := by
  constructor
  · intro reports cands r cs h
    exact generateUniqueReport_fresh reports cands r cs h
  · intro sample hs s ops h
    exact nodupIds_runOps sample hs ops s h

/-- C4 witness: the amended statement evaluated on the concrete retry run
that returns `genCand` over `demoInitState`, and on a concrete
append-then-shrink sequence from `demoInitState`. -/
theorem c4_witness :
    genCand.report_id ∉ getReportIds demoInitState.reports ∧
    ((getAllReports (runOps (@takeSampler SignalsReport) demoInitState
        [StoreOp.append [genCand], StoreOp.shrink 1])).map SignalsReport.report_id).Nodup :=
  ⟨c4_amended_unique_ids.1 demoInitState.reports [genCand] genCand [] (by decide),
   c4_amended_unique_ids.2 takeSampler validSampler_take demoInitState
     [StoreOp.append [genCand], StoreOp.shrink 1] (by decide)⟩

end GdcDemo

namespace GdcDemo

/-- C5 (confirmed): `shrink_to(n)` with `n` at least the current size
leaves the whole state — size and contents — unchanged, and for every `n`
and every outcome of the random sampling the size after a shrink never
exceeds `max n (previous size)`. -/
theorem c5_shrink_noop_and_bound :
    (∀ (sample : List SignalsReport → Nat → List SignalsReport)
        (s : ManagerState) (n : Nat),
      s.reports.length ≤ n → resetTheReports sample s n = s) ∧
    (∀ (sample : List SignalsReport → Nat → List SignalsReport),
      ValidSampler sample →
      ∀ (s : ManagerState) (n : Nat),
        (resetTheReports sample s n).reports.length ≤ max n s.reports.length) := by
  constructor
  · intro sample s n h
    exact resetTheReports_noop sample s n h
  · intro sample hs s n
    by_cases h : s.reports.length ≤ n
    · rw [resetTheReports_noop sample s n h]
      exact le_max_right n s.reports.length
    · have hn : n < s.reports.length := by omega
      obtain ⟨hlen, _, _⟩ := resetTheReports_shrink sample hs s n hn
      rw [hlen]
      exact le_max_left n s.reports.length

/-- C5 witness: the no-op and the size bound evaluated on the concrete
2-record store `demoInitState` with the concrete sampler `takeSampler`. -/
theorem c5_witness :
    resetTheReports (@takeSampler SignalsReport) demoInitState 5 = demoInitState ∧
    (resetTheReports takeSampler demoInitState 1).reports.length
      ≤ max 1 demoInitState.reports.length :=
  ⟨c5_shrink_noop_and_bound.1 takeSampler demoInitState 5 (by decide),
   c5_shrink_noop_and_bound.2 takeSampler validSampler_take demoInitState 1⟩

/-- C6 (confirmed): lookup by id returns none exactly when the id is
absent — for the signals store, `get_report_by_id(x)` is none when `x` is
not in `get_report_ids()` and is a record with that id when `x` is in it;
for the fraud listing's inline lookup (main.py), likewise relative to the
ids of the given collection. -/
theorem c6_lookup_by_id :
    (∀ (s : ManagerState) (rid : String),
      (rid ∉ getReportIds s.reports → getReportById s rid = none) ∧
      (rid ∈ getReportIds s.reports →
        ∃ r, getReportById s rid = some r ∧ r.report_id = rid)) ∧
    (∀ (reports : List FraudReport) (rid : String),
      ((∀ r ∈ reports, r.report_id ≠ rid) → findReportById reports rid = none) ∧
      (∀ r ∈ reports, r.report_id = rid →
        ∃ r2, findReportById reports rid = some r2 ∧ r2.report_id = rid)) := by
  constructor
  · intro s rid
    constructor
    · intro hout
      apply List.find?_eq_none.mpr
      intro x hx
      simp only [beq_iff_eq]
      intro heq
      exact hout (by
        simp only [getReportIds, List.mem_toFinset, List.mem_map]
        exact ⟨x, hx, heq⟩)
    · intro hin
      simp only [getReportIds, List.mem_toFinset, List.mem_map] at hin
      obtain ⟨x, hx, hxid⟩ := hin
      cases hfind : getReportById s rid with
      | none =>
        have hnone := List.find?_eq_none.mp hfind x hx
        simp only [beq_iff_eq] at hnone
        exact absurd hxid hnone
      | some r =>
        have hp := List.find?_some hfind
        simp only [beq_iff_eq] at hp
        exact ⟨r, rfl, hp⟩
  · intro reports rid
    constructor
    · intro hall
      apply List.find?_eq_none.mpr
      intro x hx
      simp only [beq_iff_eq]
      exact hall x hx
    · intro r hr hrid
      cases hfind : findReportById reports rid with
      | none =>
        have hnone := List.find?_eq_none.mp hfind r hr
        simp only [beq_iff_eq] at hnone
        exact absurd hrid hnone
      | some r2 =>
        have hp := List.find?_some hfind
        simp only [beq_iff_eq] at hp
        exact ⟨r2, rfl, hp⟩

/-- C6 witness: both lookups evaluated on concrete stores — a present id
and an absent id. -/
theorem c6_witness :
    getReportById demoInitState (mkSR 3).report_id = none ∧
    (∃ r, getReportById demoInitState (mkSR 2).report_id = some r ∧
      r.report_id = (mkSR 2).report_id) ∧
    findReportById (serviceGetAllReports demoServiceState) (mkFR 77).report_id = none ∧
    (∃ r2, findReportById (serviceGetAllReports demoServiceState) (mkFR 4).report_id
        = some r2 ∧ r2.report_id = (mkFR 4).report_id) :=
  ⟨(c6_lookup_by_id.1 demoInitState (mkSR 3).report_id).1 (by decide),
   (c6_lookup_by_id.1 demoInitState (mkSR 2).report_id).2 (by decide),
   (c6_lookup_by_id.2 (serviceGetAllReports demoServiceState) (mkFR 77).report_id).1
     (by decide),
   (c6_lookup_by_id.2 (serviceGetAllReports demoServiceState) (mkFR 4).report_id).2
     (mkFR 4) (by decide) (by decide)⟩

end GdcDemo

namespace GdcDemo

/-- C7 (confirmed): a record failing schema validation makes the whole
load fail — the loader returns an empty collection with an error banner,
retaining no partially validated record — and a missing seed file yields an
empty collection with a warning banner; either way the loader returns
normally (it never stops the script). -/
theorem c7_load_failures :
    (∀ (sample : List SignalsReport → Nat → List SignalsReport)
        (raws : List (RawRecord SignalsReport)),
      RawRecord.invalid ∈ raws →
      loadInitialReports sample (SeedFile.records raws) = ([], [UiMsg.error])) ∧
    (∀ (sample : List SignalsReport → Nat → List SignalsReport),
      loadInitialReports sample SeedFile.missing = ([], [UiMsg.warning])) := by
  constructor
  · intro sample raws hmem
    simp [loadInitialReports, validateAll_error_of_mem raws hmem]
  · intro sample
    rfl

/-- C7 witness: the load failure modes evaluated on the concrete seed
array `badRaws` and on the missing file. -/
theorem c7_witness :
    loadInitialReports (@takeSampler SignalsReport) (SeedFile.records badRaws)
      = ([], [UiMsg.error]) ∧
    loadInitialReports (@takeSampler SignalsReport) SeedFile.missing
      = ([], [UiMsg.warning]) :=
  ⟨c7_load_failures.1 takeSampler badRaws (by decide),
   c7_load_failures.2 takeSampler⟩

/-- C8 (confirmed, spec-modelled): a scheduler cycle run against a
collection at or above the cap of 500 stops the scheduler permanently: for
any number of further cycles no generation call is ever made, the
collection — hence its size — is unchanged, and from the first cycle on the
instance is in its terminal stopped state. -/
theorem c8_scheduler_at_cap (cands : List SignalsReport) (store : ManagerState) (n : Nat)
    (hcap : schedulerCap ≤ store.reports.length) :
    (schedulerRun cands ⟨store, false, 0⟩ n).store = store ∧
    (schedulerRun cands ⟨store, false, 0⟩ n).genCalls = 0 ∧
    (1 ≤ n → (schedulerRun cands ⟨store, false, 0⟩ n).stopped = true) := by
  cases n with
  | zero =>
    exact ⟨rfl, rfl, fun h => absurd h (by decide)⟩
  | succ n =>
    have hcyc : schedulerCycle cands ⟨store, false, 0⟩ = ⟨store, true, 0⟩ := by
      simp [schedulerCycle, hcap]
    have hrun : schedulerRun cands ⟨store, false, 0⟩ (n + 1) = ⟨store, true, 0⟩ := by
      show schedulerRun cands (schedulerCycle cands ⟨store, false, 0⟩) n = _
      rw [hcyc]
      exact schedulerRun_stopped cands n store 0
    rw [hrun]
    exact ⟨rfl, rfl, fun _ => rfl⟩

end GdcDemo

namespace GdcDemo

set_option maxRecDepth 40000 in
/-- C8 witness: three scheduler cycles over the concrete 500-record store
`bigStore` — exactly at the cap — make zero generation calls and leave the
store unchanged. -/
theorem c8_witness :
    schedulerCap ≤ bigStore.reports.length ∧
    ((schedulerRun [] ⟨bigStore, false, 0⟩ 3).store = bigStore ∧
     (schedulerRun [] ⟨bigStore, false, 0⟩ 3).genCalls = 0 ∧
     (1 ≤ 3 → (schedulerRun [] ⟨bigStore, false, 0⟩ 3).stopped = true)) :=
  ⟨by decide, c8_scheduler_at_cap [] bigStore 3 (by decide)⟩

end GdcDemo

namespace GdcDemo

/-- C9 (confirmed): the fraud store constructor unconditionally samples 10
reports from whatever the load returned, so a missing file, an unparseable
file, a well-formed file with fewer than 10 valid records (ValueError from
`random.sample`) or a file with an invalid record (ValidationError escaping
`_load_reports`) all make construction raise an unhandled exception; when
construction does succeed, the collection has exactly 10 records. -/
theorem c9_service_init_fragile :
    (∀ (sample : List FraudReport → Nat → List FraudReport),
      serviceInit sample SeedFile.missing = Except.error PyError.valueError) ∧
    (∀ (sample : List FraudReport → Nat → List FraudReport),
      serviceInit sample SeedFile.malformed = Except.error PyError.valueError) ∧
    (∀ (sample : List FraudReport → Nat → List FraudReport)
        (raws : List (RawRecord FraudReport)),
      RawRecord.invalid ∈ raws →
      serviceInit sample (SeedFile.records raws) = Except.error PyError.validationError) ∧
    (∀ (sample : List FraudReport → Nat → List FraudReport)
        (raws : List (RawRecord FraudReport)) (loaded : List FraudReport),
      validateAll raws = Except.ok loaded → loaded.length < 10 →
      serviceInit sample (SeedFile.records raws) = Except.error PyError.valueError) ∧
    (∀ (sample : List FraudReport → Nat → List FraudReport)
        (file : SeedFile FraudReport) (st : ServiceState),
      ValidSampler sample → serviceInit sample file = Except.ok st →
      st.reports.length = 10) := by
  refine ⟨fun sample => rfl, fun sample => rfl, ?_, ?_, ?_⟩
  · intro sample raws hmem
    simp [serviceInit, serviceLoadReports, validateAll_error_of_mem raws hmem]
  · intro sample raws loaded hok hlt
    have hcond : ¬ 10 ≤ loaded.length := by omega
    simp [serviceInit, serviceLoadReports, hok, hcond]
  · intro sample file st hs h
    unfold serviceInit at h
    cases hl : serviceLoadReports file with
    | error e =>
      rw [hl] at h
      exact absurd h (by simp)
    | ok loaded =>
      rw [hl] at h
      dsimp only at h
      by_cases hc : 10 ≤ loaded.length
      · rw [if_pos hc] at h
        simp only [Except.ok.injEq] at h
        obtain ⟨hlen, _⟩ := hs loaded 10 hc
        rw [← h]
        exact ((sortDescendingBy_perm _ _).length_eq).trans hlen
      · rw [if_neg hc] at h
        exact absurd h (by simp)

/-- C9 witness: the failure modes evaluated on the missing file, the
unparseable file, the 1-record invalid seed `fraudBadRaws` and the
3-record seed `fraudRaws3`, and the success size on `fraudRaws10`. -/
theorem c9_witness :
    serviceInit (@takeSampler FraudReport) SeedFile.missing
      = Except.error PyError.valueError ∧
    serviceInit (@takeSampler FraudReport) SeedFile.malformed
      = Except.error PyError.valueError ∧
    serviceInit takeSampler (SeedFile.records fraudBadRaws)
      = Except.error PyError.validationError ∧
    serviceInit takeSampler (SeedFile.records fraudRaws3)
      = Except.error PyError.valueError ∧
    demoServiceState.reports.length = 10 :=
  ⟨c9_service_init_fragile.1 takeSampler,
   c9_service_init_fragile.2.1 takeSampler,
   c9_service_init_fragile.2.2.1 takeSampler fraudBadRaws (by decide),
   c9_service_init_fragile.2.2.2.1 takeSampler fraudRaws3 ((List.range 3).map mkFR)
     rfl (by decide),
   c9_service_init_fragile.2.2.2.2 takeSampler (SeedFile.records fraudRaws10)
     demoServiceState validSampler_take rfl⟩

/-- C10 (confirmed): `get_all()` returns the live collection as a pure
function of the session state, so two calls with no intervening mutation
return equal sequences — the same records with the same ids in the same
order — in both store variants. -/
theorem c10_get_all_idempotent :
    (∀ s : ManagerState,
      getAllReports s = getAllReports s ∧
      (getAllReports s).map SignalsReport.report_id
        = (getAllReports s).map SignalsReport.report_id) ∧
    (∀ s : ServiceState, serviceGetAllReports s = serviceGetAllReports s) :=
  ⟨fun _ => ⟨rfl, rfl⟩, fun _ => rfl⟩

end GdcDemo
